import Mathlib

/-!
# Verification of the DLT service-federation negotiation client

Shallow embedding of the federation negotiation logic of `main.py` and
`utility_functions.py`: winner selection, the `CheckWinner` guard, the
winner-gated deployment paths, the nonce discipline of
`send_signed_transaction`, the input-validation gating of the HTTP
endpoints, the consumer bid-collection loop, and the time-based service-id
generator.  Regular-expression validators are modelled over ASCII
character classes (the classes `\w` and `\d` are read as their ASCII
subsets, which is exact on every input considered here).
-/

namespace Federation

/-- One bid as returned by `GetBidInfo` (`main.py`, `GetBid` contract call):
`bid_info[0]` is the provider address, `bid_info[1]` the price and
`bid_info[2]` the ledger-assigned bid index. -/
structure Bid where
  provider : String
  price : Int
  idx : Nat
deriving DecidableEq, Repr

/-- The bid-evaluation loop body of `simulate_consumer_federation_process`
(`main.py` lines 905-915).  The accumulator pair mirrors the Python locals
`lowest_price` (starting as `None`) and `best_bid_index`: a bid updates the
pair exactly when `lowest_price is None or bid_price < lowest_price`. -/
def selectLoop : List Bid → Option Int → Option Nat → Option Int × Option Nat
  | [], lp, bb => (lp, bb)
  | b :: rest, lp, bb =>
    match lp with
    | none => selectLoop rest (some b.price) (some b.idx)
    | some p =>
      if b.price < p then selectLoop rest (some b.price) (some b.idx)
      else selectLoop rest (some p) bb

/-- Winner selection over the fetched bid list, exactly the loop
`for i in range(received_bids)` of `simulate_consumer_federation_process`
started with `lowest_price = None`, `best_bid_index = None`.  The list
element at position `i` is the value of `GetBidInfo(service_id, i, ...)`. -/
def selectWinner (bids : List Bid) : Option Int × Option Nat :=
  selectLoop bids none none

/-- Read-only view of the ledger answering the two queries used by
`CheckWinner`: `GetServiceState` and the contract's `isWinner` call. -/
structure LedgerView where
  serviceState : String → Nat
  isWinner : String → String → Bool

/-- Model of `CheckWinner` (`main.py` lines 347-361): query the service state; only
when it equals `1` (Closed) consult the contract's `isWinner`; in every
other state return `False` without issuing the `isWinner` query. -/
def CheckWinner (L : LedgerView) (service_id blockchain_address : String) : Bool :=
  if L.serviceState service_id = 1 then L.isWinner service_id blockchain_address
  else false

/-- One state-changing submission (`main.py` lines 180-197 together with a
`buildTransaction` call site such as `AnnounceService`, `PlaceBid`,
`ChooseProvider`, `ServiceDeployed`, `RegisterDomain`, `UnregisterDomain`):
the transaction is stamped with the current global `nonce`, signed and sent
via `sendRawTransaction`, and only after the send returns is `nonce`
incremented (`nonce += 1`).  `accept` models whether `sendRawTransaction`
accepts the raw transaction; when it raises, the increment is skipped.
The result carries the nonce stamped into the transaction and the new
local nonce. -/
def send_signed_transaction (accept : Bool) (n : Nat) : Except String (Nat × Nat) :=
  if accept then Except.ok (n, n + 1) else Except.error ("submission failed")

/-- A sequence of state-changing submissions by one domain process sharing
the single global `nonce`, one `Bool` per attempt modelling acceptance by
the node.  Returns the list of nonces stamped into the successfully
submitted transactions, and the final local nonce. -/
def runSubmissions (n : Nat) : List Bool → List Nat × Nat
  | [] => ([], n)
  | a :: rest =>
    match send_signed_transaction a n with
    | Except.ok (used, n') =>
      let r := runSubmissions n' rest
      (used :: r.1, r.2)
    | Except.error _ => runSubmissions n rest

/-! ## Regular-expression validators of `utility_functions.py`

`validate_requirements` matches `^service=[\w\.-]+;replicas=\d+$` and
`validate_endpoint` matches
`^ip_address=\d{1,3}(\.\d{1,3}){3};vxlan_id=\d+;vxlan_port=\d+;federation_net=\d{1,3}(\.\d{1,3}){3}/\d+$`.
Both patterns are deterministic in the sense that greedy maximal-munch
matching agrees with backtracking regex matching: every repeated class
(`[\w.-]+`, `\d{1,3}`, `\d+`) is followed by a literal that no class
member can match, so a shorter repetition can never rescue a failed
match.  The matchers below therefore consume each repetition maximally. -/

/-- ASCII reading of the regex class `\w`. -/
def isWordChar (c : Char) : Bool :=
  (('a' ≤ c ∧ c ≤ 'z') ∨ ('A' ≤ c ∧ c ≤ 'Z') ∨ ('0' ≤ c ∧ c ≤ '9') ∨ c = '_' : Prop)

/-- The regex class `[\w\.-]` of `validate_requirements`. -/
def isReqChar (c : Char) : Bool :=
  isWordChar c || c = '.' || c = '-'

/-- Consume a literal character sequence; `none` when the input does not
start with it. -/
def stripLit : List Char → List Char → Option (List Char)
  | [], cs => some cs
  | _ :: _, [] => none
  | l :: ls, c :: cs => if c = l then stripLit ls cs else none

/-- Length of the maximal run of characters satisfying `p`, together with
the remaining input. -/
def takeRun (p : Char → Bool) : List Char → Nat × List Char
  | [] => (0, [])
  | c :: cs =>
    if p c then
      let r := takeRun p cs
      (r.1 + 1, r.2)
    else (0, c :: cs)

/-- The regex piece `\d{1,3}`: a maximal digit run of length 1 to 3. -/
def matchOctet (cs : List Char) : Option (List Char) :=
  let r := takeRun Char.isDigit cs
  if 1 ≤ r.1 ∧ r.1 ≤ 3 then some r.2 else none

/-- The regex piece `\d+`: a maximal digit run of length at least 1. -/
def matchDigits1 (cs : List Char) : Option (List Char) :=
  let r := takeRun Char.isDigit cs
  if 1 ≤ r.1 then some r.2 else none

/-- The regex piece `[\w\.-]+`. -/
def matchReqChars1 (cs : List Char) : Option (List Char) :=
  let r := takeRun isReqChar cs
  if 1 ≤ r.1 then some r.2 else none

/-- The regex piece `\d{1,3}(\.\d{1,3}){3}`: four dot-separated groups of
1-3 digits (the pattern bounds digit-group lengths but not octet values). -/
def matchDottedQuad (cs : List Char) : Option (List Char) :=
  (matchOctet cs).bind fun r1 =>
  (stripLit (['.']) r1).bind fun r2 =>
  (matchOctet r2).bind fun r3 =>
  (stripLit (['.']) r3).bind fun r4 =>
  (matchOctet r4).bind fun r5 =>
  (stripLit (['.']) r5).bind fun r6 =>
  matchOctet r6

/-- Model of `validate_requirements` (`utility_functions.py` lines 142-150). -/
def validate_requirements (requirements : String) : Bool :=
  match
    (stripLit (("service=").data) requirements.data).bind fun r1 =>
    (matchReqChars1 r1).bind fun r2 =>
    (stripLit ((";replicas=").data) r2).bind fun r3 =>
    matchDigits1 r3
  with
  | some [] => true
  | _ => false

/-- Model of `validate_endpoint` (`utility_functions.py` lines 152-160). -/
def validate_endpoint (endpoint : String) : Bool :=
  match
    (stripLit (("ip_address=").data) endpoint.data).bind fun r1 =>
    (matchDottedQuad r1).bind fun r2 =>
    (stripLit ((";vxlan_id=").data) r2).bind fun r3 =>
    (matchDigits1 r3).bind fun r4 =>
    (stripLit ((";vxlan_port=").data) r4).bind fun r5 =>
    (matchDigits1 r5).bind fun r6 =>
    (stripLit ((";federation_net=").data) r6).bind fun r7 =>
    (matchDottedQuad r7).bind fun r8 =>
    (stripLit (['/']) r8).bind fun r9 =>
    matchDigits1 r9
  with
  | some [] => true
  | _ => false

/-! ## Service-id generation and the HTTP endpoint paths -/

/-- The service id generated inside `AnnounceService` (`main.py` line 259):
`service_id = 'service' + str(int(time.time()))`, with `t` the whole-second
timestamp. -/
def AnnounceService_id (t : Nat) : String :=
  "service" ++ Nat.repr t

/-- A state-changing ledger call as built by the endpoint paths. -/
inductive LedgerCall where
  | announceService (requirements endpoint_consumer generated_id : String)
  | placeBid (service_id : String) (price : Int) (endpoint_provider : String)
deriving DecidableEq, Repr

/-- Outcome of one endpoint invocation together with the ledger call it
submitted, if any. -/
inductive EndpointOutcome where
  | badRequest (detail : String)
  | txSent (call : LedgerCall) (stamped_nonce : Nat)
  | serverError (detail : String)
deriving DecidableEq, Repr

/-- Model of `create_service_announcement_endpoint` (`main.py` lines 521-555): the
two Python truthiness-guarded checks
`if request.requirements and not utils.validate_requirements(...)` and
`if request.endpoint_consumer and not utils.validate_endpoint(...)` raise
HTTP 400 before `AnnounceService` runs; otherwise `AnnounceService` builds
the transaction with the current nonce and submits it.  `t` is the
announce-time whole-second timestamp, `accept` the node's acceptance of
the raw transaction.  The second component is the resulting local nonce. -/
def create_service_announcement_endpoint (requirements endpoint_consumer : String)
    (t : Nat) (n : Nat) (accept : Bool) : EndpointOutcome × Nat :=
  if requirements ≠ "" ∧ validate_requirements requirements = false then
    (EndpointOutcome.badRequest ("Invalid requirements format"), n)
  else if endpoint_consumer ≠ "" ∧ validate_endpoint endpoint_consumer = false then
    (EndpointOutcome.badRequest ("Invalid endpoint format"), n)
  else
    match send_signed_transaction accept n with
    | Except.ok (used, n') =>
      (EndpointOutcome.txSent
        (LedgerCall.announceService requirements endpoint_consumer (AnnounceService_id t)) used,
       n')
    | Except.error e => (EndpointOutcome.serverError e, n)

/-- Model of `place_bid_endpoint` (`main.py` lines 655-686): the truthiness-guarded
check `if request.endpoint_provider and not utils.validate_endpoint(...)`
raises HTTP 400 before `PlaceBid` runs; otherwise `PlaceBid` builds the
transaction with the current nonce and submits it. -/
def place_bid_endpoint (service_id : String) (service_price : Int)
    (endpoint_provider : String) (n : Nat) (accept : Bool) : EndpointOutcome × Nat :=
  if endpoint_provider ≠ "" ∧ validate_endpoint endpoint_provider = false then
    (EndpointOutcome.badRequest ("Invalid endpoint format"), n)
  else
    match send_signed_transaction accept n with
    | Except.ok (used, n') =>
      (EndpointOutcome.txSent (LedgerCall.placeBid service_id service_price endpoint_provider) used,
       n')
    | Except.error e => (EndpointOutcome.serverError e, n)

/-! ## Winner-gated deployment paths -/

/-- Outcome of `service_deployed_endpoint` (`main.py` lines 803-830). -/
inductive DeployOutcome where
  | submitted (service_id federated_host : String) (nonce' : Nat)
  | notWinner
  | serverError (detail : String)
deriving DecidableEq, Repr

/-- Model of `service_deployed_endpoint` (`main.py` lines 803-830): submit the
`ServiceDeployed` transaction only when `CheckWinner` returns `True`;
otherwise answer HTTP 404 "You are not the winner." without touching the
ledger or the nonce. -/
def service_deployed_endpoint (L : LedgerView) (service_id federated_host : String)
    (blockchain_address : String) (n : Nat) (accept : Bool) : DeployOutcome :=
  if CheckWinner L service_id blockchain_address then
    match send_signed_transaction accept n with
    | Except.ok (_, n') => DeployOutcome.submitted service_id federated_host n'
    | Except.error e => DeployOutcome.serverError e
  else DeployOutcome.notWinner

/-- Outcome of the winner-decision phase of
`simulate_provider_federation_process`. -/
inductive ProviderRunOutcome where
  | deployedSubmitted (service_id federated_host : String)
  | nameError (undefined_name : String)
deriving DecidableEq, Repr

/-- The winner-decision phase of `simulate_provider_federation_process`
(`main.py` lines 1064-1128), entered after the
`ServiceAnnouncementClosed` event for `service_id` has been observed.
The `while am_i_winner == False` loop calls `CheckWinner` once: on `True`
it breaks out and the run proceeds through deployment to the
`ServiceDeployed` submission (line 1128); on `False` the branch evaluates
`if export_to_csv:` (line 1079), a bare name that is defined nowhere at
module scope (the request field is `request.export_to_csv`), so the
interpreter raises `NameError`, which the surrounding `except Exception`
turns into an HTTP 500 - the clean `return` on line 1081 is unreachable. -/
def provider_winner_phase (L : LedgerView) (service_id blockchain_address : String)
    (federated_host : String) : ProviderRunOutcome :=
  if CheckWinner L service_id blockchain_address then
    ProviderRunOutcome.deployedSubmitted service_id federated_host
  else
    ProviderRunOutcome.nameError ("export_to_csv")

/-! ## Consumer bid-collection phase -/

/-- The `while not bidderArrived` polling loop of
`simulate_consumer_federation_process` (`main.py` lines 887-902): scan the
stream of `NewBid` events (each carrying `max_bid_index`, the bid count
reported by the ledger) and stop at the first event whose count reaches
`request.service_providers`.  `none` models the loop never terminating
because no event ever reaches the quorum. -/
def waitForBids (service_providers : Nat) : List Nat → Option Nat
  | [] => none
  | c :: rest => if service_providers ≤ c then some c else waitForBids service_providers rest

/-- Result of the consumer bid-collection phase: the bid count at which the
poll stopped, the bids fetched by `GetBidInfo` for indices
`0..count-1`, and the bid index passed to `ChooseProvider`. -/
structure ConsumerDecision where
  bidCount : Nat
  fetched : List Bid
  chooseIdx : Option Nat
deriving DecidableEq, Repr

/-- The consumer bid phase of `simulate_consumer_federation_process`
(`main.py` lines 887-921): poll until the reported bid count reaches the
quorum, fetch `GetBidInfo(service_id, i, ...)` for `i in
range(received_bids)`, run the selection loop, and pass `best_bid_index`
to `ChooseProvider`.  `getBid i` is the ledger's bid at index `i`. -/
def consumer_bid_phase (service_providers : Nat) (events : List Nat)
    (getBid : Nat → Bid) : Option ConsumerDecision :=
  match waitForBids service_providers events with
  | none => none
  | some count =>
    let fetched := (List.range count).map getBid
    some ⟨count, fetched, (selectWinner fetched).2⟩

/-! ## Decimal-representation helpers

`AnnounceService_id` embeds Python's `str` on a nonnegative integer as
`Nat.repr`.  To reason about collisions we prove that `Nat.repr` is
injective, by exhibiting the base-10 left inverse below. -/

/-- Decode a most-significant-first decimal digit string. -/
def decodeDecimal (l : List Char) : Nat :=
  l.foldl (fun a c => a * 10 + (c.toNat - 48)) 0

/-- The bid set of the spec's worked example: three providers bidding 50,
30 and 40, in that submission order. -/
def exampleBids : List Bid :=
  [⟨"providerA", 50, 0⟩, ⟨"providerB", 30, 1⟩, ⟨"providerC", 40, 2⟩]

/-! ## Theorems -/

/-- C2: while a service is Open (state 0), `CheckWinner` answers `false`
for every candidate address, whatever the contract's `isWinner` relation
would say — the `isWinner` query is never consulted outside state 1. -/
theorem C2_open_state_never_winner (state : String → Nat)
    (win : String → String → Bool) (service_id addr : String)
    (h : state service_id = 0) :
    CheckWinner ⟨state, win⟩ service_id addr = false := by
  simp [CheckWinner, h]

/-- Witness for C2: a ledger whose `isWinner` relation answers `true` for
everyone still yields `false` from `CheckWinner` while the state is 0. -/
theorem C2_open_state_never_winner_witness :
    CheckWinner ⟨fun _ => 0, fun _ _ => true⟩ ("service100") ("0xprovider") = false :=
  C2_open_state_never_winner (fun _ => 0) (fun _ _ => true) ("service100") ("0xprovider") rfl

/-- C9: `CheckWinner` answers `false` in every state other than Closed (1);
in particular a Deployed (2) service reports no winner even to the provider
that won. -/
theorem C9_winner_only_when_closed (state : String → Nat)
    (win : String → String → Bool) (service_id addr : String)
    (h : state service_id ≠ 1) :
    CheckWinner ⟨state, win⟩ service_id addr = false := by
  simp [CheckWinner, h]

/-- Witness for C9: a Deployed (state 2) service for which the contract's
`isWinner` holds of the caller still gets `false` from `CheckWinner`. -/
theorem C9_winner_only_when_closed_witness :
    CheckWinner ⟨fun _ => 2, fun _ _ => true⟩ ("service100") ("0xwinner") = false :=
  C9_winner_only_when_closed (fun _ => 2) (fun _ _ => true) ("service100") ("0xwinner")
    (by decide)

/-- C3: winner-gated deployment.  The `ServiceDeployed` submission is
reached only behind a `CheckWinner = true` test, both in
`service_deployed_endpoint` and in the provider orchestration run. -/
theorem C3_winner_gated_deployment :
    (∀ (L : LedgerView) (sid host addr : String) (n : Nat) (accept : Bool) (n' : Nat),
        service_deployed_endpoint L sid host addr n accept
          = DeployOutcome.submitted sid host n' →
        CheckWinner L sid addr = true) ∧
    (∀ (L : LedgerView) (sid addr host : String),
        provider_winner_phase L sid addr host
          = ProviderRunOutcome.deployedSubmitted sid host →
        CheckWinner L sid addr = true) := by
  constructor
  · intro L sid host addr n accept n' h
    cases hcw : CheckWinner L sid addr with
    | true => rfl
    | false => rw [service_deployed_endpoint, hcw] at h; simp at h
  · intro L sid addr host h
    cases hcw : CheckWinner L sid addr with
    | true => rfl
    | false => rw [provider_winner_phase, hcw] at h; simp at h

/-- Witness for C3: on a Closed service whose `isWinner` holds of the
caller, both deployment paths do reach the submission, and the theorem
recovers `CheckWinner = true` from that. -/
theorem C3_winner_gated_deployment_witness :
    CheckWinner ⟨fun _ => 1, fun _ _ => true⟩ ("service100") ("0xprovider") = true ∧
    CheckWinner ⟨fun _ => 1, fun _ _ => true⟩ ("service200") ("0xprovider") = true :=
  ⟨C3_winner_gated_deployment.1 ⟨fun _ => 1, fun _ _ => true⟩ ("service100") ("10.0.0.5")
      ("0xprovider") 5 true 6 rfl,
   C3_winner_gated_deployment.2 ⟨fun _ => 1, fun _ _ => true⟩ ("service200") ("0xprovider")
      ("10.0.0.5") rfl⟩

/-- C4 (code bug): when `CheckWinner` answers `false` after the
announcement is closed, the provider run does NOT end with the clean
"Other provider chosen" response of `main.py` line 1081: the guard
`if export_to_csv:` on line 1079 reads a name that is never defined, so
the branch raises `NameError` and the endpoint answers HTTP 500. -/
theorem C4_not_winner_branch_raises :
    provider_winner_phase ⟨fun _ => 1, fun _ _ => false⟩ ("service100") ("0xprovider")
      ("10.0.0.5")
      = ProviderRunOutcome.nameError ("export_to_csv") := rfl

/-- C5: nonce discipline of `send_signed_transaction`.  A successful
submission stamps the current nonce and advances it by exactly one; a
rejected submission leaves it unchanged; hence the nonces stamped into any
sequence of successful submissions are consecutive — strictly increasing
with no gaps — starting from the initial local nonce. -/
theorem C5_nonce_discipline :
    (∀ n : Nat, send_signed_transaction true n = Except.ok (n, n + 1)) ∧
    (∀ n : Nat, send_signed_transaction false n = Except.error ("submission failed")) ∧
    (∀ (n : Nat) (accepts : List Bool),
        runSubmissions n accepts
          = (List.range' n (accepts.count true), n + accepts.count true)) ∧
    (∀ (n : Nat) (accepts : List Bool),
        List.Pairwise (· < ·) (runSubmissions n accepts).1) := by
  have key : ∀ (accepts : List Bool) (n : Nat),
      runSubmissions n accepts
        = (List.range' n (accepts.count true), n + accepts.count true) := by
    intro accepts
    induction accepts with
    | nil => intro n; simp [runSubmissions]
    | cons a rest ih =>
      intro n
      cases a with
      | true =>
        simp [runSubmissions, send_signed_transaction, ih, List.count_cons, List.range'_succ]
        omega
      | false =>
        simp [runSubmissions, send_signed_transaction, ih, List.count_cons]
  refine ⟨fun n => rfl, fun n => rfl, fun n accepts => key accepts n, ?_⟩
  intro n accepts
  rw [key accepts n]
  exact List.pairwise_lt_range' n (accepts.count true)

/-- C10: the endpoint regex only bounds each IP digit group to 1-3 digits,
so an endpoint whose octets are 999 — not a valid IPv4 address, every
octet exceeding 255 — passes `validate_endpoint` and `place_bid` proceeds
to the ledger call. -/
theorem C10_validate_endpoint_accepts_overlarge_octets :
    validate_endpoint
        ("ip_address=999.999.999.999;vxlan_id=1;vxlan_port=1;federation_net=999.0.0.0/16")
      = true ∧
    (255 : Nat) < 999 ∧
    place_bid_endpoint ("service123") 10
        ("ip_address=999.999.999.999;vxlan_id=1;vxlan_port=1;federation_net=999.0.0.0/16")
        5 true
      = (EndpointOutcome.txSent
          (LedgerCall.placeBid ("service123") 10
            ("ip_address=999.999.999.999;vxlan_id=1;vxlan_port=1;federation_net=999.0.0.0/16"))
          5, 6) := by
  refine ⟨by decide, by decide, by decide⟩

/-- C6 counterexample: the claim "every request whose requirements string
fails format validation is rejected before any ledger call" is false.  The
empty requirements string fails `validate_requirements`, yet the Python
truthiness guard `if request.requirements and ...` skips the check, so the
announcement is built and submitted and the nonce advances. -/
theorem C6_counterexample_empty_requirements :
    validate_requirements ("") = false ∧
    create_service_announcement_endpoint ("")
        ("ip_address=10.0.0.1;vxlan_id=200;vxlan_port=4789;federation_net=10.0.0.0/16")
        100 7 true
      = (EndpointOutcome.txSent
          (LedgerCall.announceService ("")
            ("ip_address=10.0.0.1;vxlan_id=200;vxlan_port=4789;federation_net=10.0.0.0/16")
            (AnnounceService_id 100))
          7, 8) := by
  refine ⟨by decide, by decide⟩

/-- C6 (amended): every request whose requirements or endpoint string is
NON-EMPTY and fails format validation is rejected with a 400-class error
before any ledger call is built or submitted, leaving the nonce
unchanged; an empty string bypasses the check. -/
theorem C6_malformed_input_gating (requirements endpoint_consumer : String)
    (t n : Nat) (accept : Bool)
    (service_id : String) (price : Int) (endpoint_provider : String)
    (m : Nat) (accept' : Bool)
    (hann : (requirements ≠ "" ∧ validate_requirements requirements = false) ∨
      (endpoint_consumer ≠ "" ∧ validate_endpoint endpoint_consumer = false))
    (hbid : endpoint_provider ≠ "" ∧ validate_endpoint endpoint_provider = false) :
    (∃ d, create_service_announcement_endpoint requirements endpoint_consumer t n accept
        = (EndpointOutcome.badRequest d, n)) ∧
    place_bid_endpoint service_id price endpoint_provider m accept'
      = (EndpointOutcome.badRequest ("Invalid endpoint format"), m) := by
  constructor
  · rcases hann with h1 | h2
    · exact ⟨_, by rw [create_service_announcement_endpoint, if_pos h1]⟩
    · by_cases h1 : requirements ≠ "" ∧ validate_requirements requirements = false
      · exact ⟨_, by rw [create_service_announcement_endpoint, if_pos h1]⟩
      · exact ⟨_, by rw [create_service_announcement_endpoint, if_neg h1, if_pos h2]⟩
  · rw [place_bid_endpoint, if_pos hbid]

/-- Witness for C6 (amended): a malformed non-empty requirements string and
a malformed non-empty provider endpoint are both rejected with the nonce
untouched. -/
theorem C6_malformed_input_gating_witness :
    (∃ d, create_service_announcement_endpoint ("not a requirement")
        ("ip_address=10.0.0.1;vxlan_id=200;vxlan_port=4789;federation_net=10.0.0.0/16")
        100 7 true
        = (EndpointOutcome.badRequest d, 7)) ∧
    place_bid_endpoint ("service100") 10 ("nonsense") 9 true
      = (EndpointOutcome.badRequest ("Invalid endpoint format"), 9) :=
  C6_malformed_input_gating ("not a requirement")
    ("ip_address=10.0.0.1;vxlan_id=200;vxlan_port=4789;federation_net=10.0.0.0/16")
    100 7 true ("service100") 10 ("nonsense") 9 true
    (Or.inl ⟨by decide, by decide⟩) ⟨by decide, by decide⟩

/-- Helper for C7: the polling loop stops at a count that reaches the
quorum, and every event scanned before it reported a count below the
quorum. -/
theorem waitForBids_spec (q : Nat) :
    ∀ (events : List Nat) (count : Nat),
      waitForBids q events = some count →
      q ≤ count ∧
      ∃ i, ∃ hi : i < events.length, events.get ⟨i, hi⟩ = count ∧
        ∀ j, ∀ hj : j < events.length, j < i → events.get ⟨j, hj⟩ < q
  | [], count, h => by simp [waitForBids] at h
  | c :: rest, count, h => by
    rw [waitForBids] at h
    by_cases hc : q ≤ c
    · rw [if_pos hc] at h
      injection h with h
      subst h
      refine ⟨hc, 0, by simp, by simp, ?_⟩
      intro j hj hj0
      exact absurd hj0 (Nat.not_lt_zero j)
    · rw [if_neg hc] at h
      obtain ⟨h1, i, hi, he, hearlier⟩ := waitForBids_spec q rest count h
      refine ⟨h1, i + 1, by simpa using Nat.succ_lt_succ hi, by simpa using he, ?_⟩
      intro j hj hj0
      cases j with
      | zero => simpa using Nat.lt_of_not_le hc
      | succ j' =>
        have hj' : j' < rest.length := by simpa using hj
        simpa using hearlier j' hj' (Nat.lt_of_succ_lt_succ hj0)

/-- C7: the consumer bid phase stops polling only once an event reports a
bid count at least the configured `service_providers` quorum (all earlier
events reported smaller counts), and then fetches exactly the bids of
index 0 through count-1 before running winner selection and passing its
result to `ChooseProvider`. -/
theorem C7_consumer_bid_collection (service_providers : Nat) (events : List Nat)
    (getBid : Nat → Bid) (count : Nat)
    (h : waitForBids service_providers events = some count) :
    service_providers ≤ count ∧
    (∃ i, ∃ hi : i < events.length, events.get ⟨i, hi⟩ = count ∧
      ∀ j, ∀ hj : j < events.length, j < i → events.get ⟨j, hj⟩ < service_providers) ∧
    consumer_bid_phase service_providers events getBid
      = some ⟨count, (List.range count).map getBid,
              (selectWinner ((List.range count).map getBid)).2⟩ := by
  obtain ⟨h1, hfirst⟩ := waitForBids_spec service_providers events count h
  exact ⟨h1, hfirst, by rw [consumer_bid_phase, h]⟩

/-- Witness for C7: quorum 2 against a stream reporting counts 0, 1, 3:
the poll stops at count 3 and the phase fetches bids 0, 1, 2. -/
theorem C7_consumer_bid_collection_witness :
    2 ≤ 3 ∧
    (∃ i, ∃ hi : i < ([0, 1, 3] : List Nat).length, ([0, 1, 3] : List Nat).get ⟨i, hi⟩ = 3 ∧
      ∀ j, ∀ hj : j < ([0, 1, 3] : List Nat).length, j < i →
        ([0, 1, 3] : List Nat).get ⟨j, hj⟩ < 2) ∧
    consumer_bid_phase 2 [0, 1, 3] (fun i : Nat => ⟨"p", (i : Int), i⟩)
      = some ⟨3, (List.range 3).map (fun i : Nat => ⟨"p", (i : Int), i⟩),
              (selectWinner ((List.range 3).map (fun i : Nat => ⟨"p", (i : Int), i⟩))).2⟩ :=
  C7_consumer_bid_collection 2 [0, 1, 3] (fun i : Nat => ⟨"p", (i : Int), i⟩) 3 rfl

/-- Helper for C1: when the running lowest price is below every remaining
bid, the loop keeps its accumulator unchanged (the update test
`bid_price < lowest_price` is strict). -/
theorem selectLoop_no_update (bids : List Bid) (p : Int) (j : Nat)
    (h : ∀ b ∈ bids, p ≤ b.price) :
    selectLoop bids (some p) (some j) = (some p, some j) := by
  induction bids with
  | nil => rfl
  | cons b rest ih =>
    rw [selectLoop]
    rw [if_neg (not_lt.mpr (h b (List.mem_cons_self b rest)))]
    exact ih fun b' hb' => h b' (List.mem_cons_of_mem b hb')

/-- Helper for C1: when some remaining bid beats the running lowest price,
the loop ends on the position of the first bid attaining the minimum of
the remaining prices (every strictly earlier bid is strictly more
expensive). -/
theorem selectLoop_update (bids : List Bid) :
    ∀ (p : Int) (j : Nat), (∃ b ∈ bids, b.price < p) →
    ∃ k, ∃ hk : k < bids.length,
      selectLoop bids (some p) (some j)
        = (some (bids.get ⟨k, hk⟩).price, some (bids.get ⟨k, hk⟩).idx) ∧
      (bids.get ⟨k, hk⟩).price < p ∧
      (∀ b ∈ bids, (bids.get ⟨k, hk⟩).price ≤ b.price) ∧
      (∀ i, ∀ hi : i < bids.length, i < k →
        (bids.get ⟨i, hi⟩).price > (bids.get ⟨k, hk⟩).price) := by
  induction bids with
  | nil =>
    intro p j h
    obtain ⟨b, hb, _⟩ := h
    exact absurd hb (List.not_mem_nil b)
  | cons b rest ih =>
    intro p j h
    by_cases hb : b.price < p
    · by_cases hrest : ∃ c ∈ rest, c.price < b.price
      · obtain ⟨k, hk, heq, hlt, hmin, hfirst⟩ := ih b.price b.idx hrest
        refine ⟨k + 1, Nat.succ_lt_succ hk, ?_, ?_, ?_, ?_⟩
        · rw [selectLoop, if_pos hb, heq]
          simp
        · simpa using lt_trans hlt hb
        · intro b' hb'
          rcases List.mem_cons.mp hb' with rfl | hmem
          · simpa using le_of_lt hlt
          · simpa using hmin b' hmem
        · intro i hi hik
          cases i with
          | zero => simpa using hlt
          | succ i' =>
            have hi' : i' < rest.length := by simpa using hi
            simpa using hfirst i' hi' (Nat.lt_of_succ_lt_succ hik)
      · push_neg at hrest
        refine ⟨0, Nat.succ_pos _, ?_, by simpa using hb, ?_, ?_⟩
        · rw [selectLoop, if_pos hb, selectLoop_no_update rest b.price b.idx hrest]
          simp
        · intro b' hb'
          rcases List.mem_cons.mp hb' with rfl | hmem
          · simp
          · simpa using hrest b' hmem
        · intro i hi hik
          exact absurd hik (Nat.not_lt_zero i)
    · have hp : p ≤ b.price := not_lt.mp hb
      have hrest : ∃ c ∈ rest, c.price < p := by
        obtain ⟨c, hc, hcp⟩ := h
        rcases List.mem_cons.mp hc with rfl | hmem
        · exact absurd hcp hb
        · exact ⟨c, hmem, hcp⟩
      obtain ⟨k, hk, heq, hlt, hmin, hfirst⟩ := ih p j hrest
      refine ⟨k + 1, Nat.succ_lt_succ hk, ?_, ?_, ?_, ?_⟩
      · rw [selectLoop, if_neg hb, heq]
        simp
      · simpa using hlt
      · intro b' hb'
        rcases List.mem_cons.mp hb' with rfl | hmem
        · simpa using le_of_lt (lt_of_lt_of_le hlt hp)
        · simpa using hmin b' hmem
      · intro i hi hik
        cases i with
        | zero => simpa using lt_of_lt_of_le hlt hp
        | succ i' =>
          have hi' : i' < rest.length := by simpa using hi
          simpa using hfirst i' hi' (Nat.lt_of_succ_lt_succ hik)

/-- C1: on every non-empty bid list whose entry at position `i` carries the
ledger-assigned bid index `i`, the consumer's selection returns the bid
with the strictly lowest price; when several bids share that price it
returns the earliest bid index (every strictly earlier bid is strictly
more expensive); and re-running the selection on the same list yields the
same result (it is a pure function). -/
theorem C1_winner_selection (bids : List Bid) (hne : bids ≠ [])
    (hidx : ∀ i, ∀ h : i < bids.length, (bids.get ⟨i, h⟩).idx = i) :
    ∃ k, ∃ hk : k < bids.length,
      selectWinner bids = (some (bids.get ⟨k, hk⟩).price, some k) ∧
      (∀ i, ∀ hi : i < bids.length, (bids.get ⟨k, hk⟩).price ≤ (bids.get ⟨i, hi⟩).price) ∧
      (∀ i, ∀ hi : i < bids.length, i < k →
        (bids.get ⟨k, hk⟩).price < (bids.get ⟨i, hi⟩).price) ∧
      selectWinner bids = selectWinner bids := by
  match bids, hne with
  | b :: rest, _ =>
    have hw : selectWinner (b :: rest) = selectLoop rest (some b.price) (some b.idx) := rfl
    by_cases hrest : ∃ c ∈ rest, c.price < b.price
    · obtain ⟨k, hk, heq, hlt, hmin, hfirst⟩ := selectLoop_update rest b.price b.idx hrest
      have hk1 : k + 1 < (b :: rest).length := Nat.succ_lt_succ hk
      have hget : (b :: rest).get ⟨k + 1, hk1⟩ = rest.get ⟨k, hk⟩ := rfl
      refine ⟨k + 1, hk1, ?_, ?_, ?_, rfl⟩
      · rw [hw, heq, hget]
        have hi1 : (rest.get ⟨k, hk⟩).idx = k + 1 := by
          have := hidx (k + 1) hk1
          rwa [hget] at this
        rw [hi1]
      · intro i hi
        rw [hget]
        cases i with
        | zero => exact le_of_lt hlt
        | succ i' =>
          have hi' : i' < rest.length := Nat.lt_of_succ_lt_succ hi
          exact hmin (rest.get ⟨i', hi'⟩) (List.get_mem rest i' hi')
      · intro i hi hik
        rw [hget]
        cases i with
        | zero => exact hlt
        | succ i' =>
          have hi' : i' < rest.length := Nat.lt_of_succ_lt_succ hi
          exact hfirst i' hi' (Nat.lt_of_succ_lt_succ hik)
    · push_neg at hrest
      have h0 : (0 : Nat) < (b :: rest).length := Nat.succ_pos _
      refine ⟨0, h0, ?_, ?_, ?_, rfl⟩
      · rw [hw, selectLoop_no_update rest b.price b.idx hrest]
        have hb0 : b.idx = 0 := hidx 0 h0
        rw [hb0]
        rfl
      · intro i hi
        cases i with
        | zero => exact le_refl _
        | succ i' =>
          have hi' : i' < rest.length := Nat.lt_of_succ_lt_succ hi
          exact hrest (rest.get ⟨i', hi'⟩) (List.get_mem rest i' hi')
      · intro i hi hik
        exact absurd hik (Nat.not_lt_zero i)

/-- Witness for C1 on the spec's worked example (prices 50, 30, 40): the
winner is bid index 1 at price 30. -/
theorem C1_winner_selection_witness :
    ∃ k, ∃ hk : k < exampleBids.length,
      selectWinner exampleBids = (some (exampleBids.get ⟨k, hk⟩).price, some k) ∧
      (∀ i, ∀ hi : i < exampleBids.length,
        (exampleBids.get ⟨k, hk⟩).price ≤ (exampleBids.get ⟨i, hi⟩).price) ∧
      (∀ i, ∀ hi : i < exampleBids.length, i < k →
        (exampleBids.get ⟨k, hk⟩).price < (exampleBids.get ⟨i, hi⟩).price) ∧
      selectWinner exampleBids = selectWinner exampleBids :=
  C1_winner_selection exampleBids (by decide)
    (by
      intro i h
      match i, h with
      | 0, _ => rfl
      | 1, _ => rfl
      | 2, _ => rfl
      | i + 3, h => simp [exampleBids] at h)

/-- Helper for C8: the characters emitted by `Nat.digitChar` decode back to
the digit. -/
theorem digitChar_decode (d : Nat) (h : d < 10) : (Nat.digitChar d).toNat - 48 = d := by
  interval_cases d <;> rfl

/-- Helper for C8: folding the decimal decoder over the output of the core
digit printer recovers the printed number, for any sufficient fuel and any
already-accumulated suffix. -/
theorem toDigitsCore_foldl (fuel : Nat) :
    ∀ (n : Nat) (ds : List Char), n < fuel →
    List.foldl (fun a c => a * 10 + (c.toNat - 48)) 0 (Nat.toDigitsCore 10 fuel n ds)
      = List.foldl (fun a c => a * 10 + (c.toNat - 48)) n ds := by
  induction fuel with
  | zero => intro n ds h; exact absurd h (Nat.not_lt_zero n)
  | succ f ih =>
    intro n ds h
    rw [Nat.toDigitsCore]
    by_cases h10 : n / 10 = 0
    · simp only [if_pos h10, List.foldl_cons]
      rw [digitChar_decode (n % 10) (Nat.mod_lt n (by norm_num))]
      congr 1
      omega
    · simp only [if_neg h10]
      rw [ih (n / 10) (Nat.digitChar (n % 10) :: ds) (by omega)]
      rw [List.foldl_cons, digitChar_decode (n % 10) (Nat.mod_lt n (by omega))]
      congr 1
      omega

/-- Helper for C8: `decodeDecimal` is a left inverse of the decimal
printer underlying Python's `str` on nonnegative integers. -/
theorem decodeDecimal_repr (n : Nat) : decodeDecimal (Nat.repr n).data = n := by
  have h1 : (Nat.repr n).data = Nat.toDigitsCore 10 (n + 1) n [] := rfl
  rw [h1]
  have h2 := toDigitsCore_foldl (n + 1) n [] (Nat.lt_succ_self n)
  simpa [decodeDecimal] using h2

/-- Helper for C8: the decimal printer is injective. -/
theorem Nat_repr_inj (m n : Nat) (h : Nat.repr m = Nat.repr n) : m = n := by
  have hd := congrArg (fun s => decodeDecimal s.data) h
  simpa [decodeDecimal_repr] using hd

/-- C8 counterexample: modelling an announce call as (call serial number,
whole-second timestamp), two distinct announce calls made within the same
second generate the SAME service id, so the claim that every pair of
distinct announcements produces distinct ids is false. -/
theorem C8_counterexample_same_second :
    ¬ (∀ c1 c2 : Nat × Nat, c1 ≠ c2 →
        AnnounceService_id c1.2 ≠ AnnounceService_id c2.2) := fun h =>
  h (0, 1700000000) (1, 1700000000) (by decide) rfl

/-- C8 (amended): service ids generated at distinct whole-second
timestamps are distinct — the id is injective in the timestamp, but two
announcements inside the same second collide. -/
theorem C8_service_id_injective_in_time (t1 t2 : Nat) (h : t1 ≠ t2) :
    AnnounceService_id t1 ≠ AnnounceService_id t2 := by
  intro he
  apply h
  apply Nat_repr_inj
  have hd := congrArg String.data he
  simp only [AnnounceService_id, String.data_append] at hd
  exact String.ext (List.append_cancel_left hd)

/-- Witness for C8 (amended): announcements one second apart get distinct
ids. -/
theorem C8_service_id_injective_in_time_witness :
    AnnounceService_id 1700000000 ≠ AnnounceService_id 1700000001 :=
  C8_service_id_injective_in_time 1700000000 1700000001 (by decide)

end Federation

